import Mathlib

/-!
# Verification development for `go/vt/tabletserver/cache_pool.go`

A shallow embedding of `CachePool`: the manager's fields are a record, every
call made to a collaborator outside the file (temp files, process control,
memcache dialing, the resource pool, the stats registry) is appended to a
trace, and the results of those calls are supplied by an environment record.
A method is a function from a world (fields and trace) to a result that says
how the call ended: a normal return, a Go panic, or `log.Fatal` ending the
process.  The embedding is sequential: `cp.mu` is not modelled, and neither are
the log lines.  `pools.NewResourcePool`, `exec.Command` and the stats registry
are taken to return; `time.Sleep` is recorded as a call and has no duration.
-/

namespace Tabletserver

/-! ## Data model -/

/-- Error kinds of a `TabletError`; the file only ever raises `ErrFatal`. -/
inductive ErrorKind
  | ErrFail
  | ErrRetry
  | ErrFatal
  | ErrTxPoolFull
  | ErrNotInTx
deriving DecidableEq, Repr

/-- The value carried by a Go panic.  For the two `TabletError` constructors the
call made in the source is recorded as it is written there. -/
inductive PanicValue
  | NewTabletError (errorType : ErrorKind) (message : String)
  | NewTabletErrorSql (errorType : ErrorKind) (err : String)
  | nilDereference
deriving DecidableEq, Repr

/-- The fields of `RowCacheConfig` this file reads. -/
structure RowCacheConfig where
  Binary : String
  Connections : Int
deriving DecidableEq, Repr

/-- A `*pools.ResourcePool`, identified by the numeric arguments
`NewResourcePool` was given.  Its factory is the closure of `Open`, which
dials whatever `cp.socket` holds when it is called. -/
structure ResourcePool where
  capacity : Int
  maxCap : Int
  idleTimeout : Int
deriving DecidableEq, Repr

/-- An `*exec.Cmd`: the arguments of the `GetSubprocessFlags` call its command
line came from and, once `Start` has succeeded, the process it runs. -/
structure Cmd where
  config : RowCacheConfig
  socket : String
  Process : Option Nat
deriving DecidableEq, Repr

/-- A `context.Context`, as far as a caller can tell two of them apart. -/
structure Context where
  id : Nat
deriving DecidableEq, Repr

/-- A `*memcache.Connection`. -/
structure Connection where
  id : Nat
deriving DecidableEq, Repr

/-- A `*MemcacheStats`, with the three flags `NewMemcacheStats` was given. -/
structure MemcacheStats where
  main : Bool
  slabs : Bool
  items : Bool
deriving DecidableEq, Repr

/-- The struct `CachePool` (without its mutex). -/
structure CachePool where
  name : String
  pool : Option ResourcePool
  maxPrefix : Int
  cmd : Option Cmd
  rowCacheConfig : RowCacheConfig
  capacity : Int
  socket : String
  idleTimeout : Int
  memcacheStats : Option MemcacheStats
deriving DecidableEq, Repr

/-- A call made to a collaborator outside the file, in program order. -/
inductive Event
  | publish (name : String)
  | httpHandle (url : String)
  | tempFile (dir : String) (pre : String)
  | fileClose (name : String)
  | remove (name : String)
  | start (cmd : Cmd)
  | sleep (ms : Nat)
  | connect (socket : String) (timeoutMs : Nat)
  | set (key : String) (value : String)
  | connClose
  | kill (pid : Nat)
  | goWait (pid : Nat)
  | newResourcePool (p : ResourcePool)
  | statsOpen
  | statsClose
  | poolClose (p : ResourcePool)
  | poolGet (p : ResourcePool) (ctx : Context)
  | poolPut (p : ResourcePool) (conn : Option Connection)
deriving DecidableEq, Repr

/-- The manager together with the calls made so far. -/
structure World where
  cp : CachePool
  trace : List Event
deriving DecidableEq, Repr

/-- How a call ends: it returns, it panics, or `log.Fatal` ends the process. -/
inductive Res (α : Type)
  | ret (a : α) (w : World)
  | panic (v : PanicValue) (w : World)
  | fatal (msg : String) (w : World)
deriving DecidableEq, Repr

/-- The world a call leaves behind, however it ended. -/
def Res.world {α : Type} : Res α → World
  | .ret _ w => w
  | .panic _ w => w
  | .fatal _ w => w

/-- A method body. -/
def M (α : Type) : Type := World → Res α

/-- Sequencing: a panic or a fatal exit skips the rest. -/
def M.bind {α β : Type} (m : M α) (f : α → M β) : M β := fun w =>
  match m w with
  | .ret a w1 => f a w1
  | .panic v w1 => .panic v w1
  | .fatal msg w1 => .fatal msg w1

instance : Monad M where
  pure a := fun w => .ret a w
  bind := M.bind

/-- Read the manager. -/
def getCp : M CachePool := fun w => .ret w.cp w

/-- Assign to fields of the manager. -/
def modifyCp (f : CachePool → CachePool) : M Unit := fun w =>
  .ret () { w with cp := f w.cp }

/-- Record a call to a collaborator. -/
def emit (e : Event) : M Unit := fun w =>
  .ret () { w with trace := w.trace ++ [e] }

/-- The Go statement `panic(v)`. -/
def goPanic {α : Type} (v : PanicValue) : M α := fun w => .panic v w

/-- `log.Fatal` and `log.Fatalf`: the process exits. -/
def logFatal {α : Type} (msg : String) : M α := fun w => .fatal msg w

/-- Results of the external calls one `Open` makes. -/
inductive Probe
  | connectError (err : String)
  | setError (err : String)
  | healthy
deriving DecidableEq, Repr

/-- The environment of one `Open`: the system temp directory (with its
separator) and the random part of the temp file name, the errors of the three
file calls of `generateFilename`, the result of `cmd.Start` (the process on
success), and what the health probe meets at each iteration of the loop. -/
structure OpenEnv where
  tmpDir : String
  suffix : String
  tempFileErr : Option String
  closeErr : Option String
  removeErr : Option String
  startResult : Except String Nat
  probe : Nat → Probe

/-! ## The code -/

def statsURL : String := "/debug/memcache/"

/-- The zero value `&CachePool{name: name, idleTimeout: idleTimeout}`. -/
def CachePool.zero (name : String) (idleTimeout : Int) : CachePool :=
  { name := name, pool := none, maxPrefix := 0, cmd := none,
    rowCacheConfig := { Binary := "", Connections := 0 }, capacity := 0,
    socket := "", idleTimeout := idleTimeout, memcacheStats := none }

/-- Body of `NewCachePool`, acting on the struct allocated at its first line. -/
def NewCachePoolBody (name : String) (rowCacheConfig : RowCacheConfig) : M CachePool := do
  if name ≠ "" then
    modifyCp fun cp => { cp with memcacheStats := some ⟨true, false, false⟩ }
    emit (.publish (name ++ "ConnPoolCapacity"))
    emit (.publish (name ++ "ConnPoolAvailable"))
    emit (.publish (name ++ "ConnPoolMaxCap"))
    emit (.publish (name ++ "ConnPoolWaitCount"))
    emit (.publish (name ++ "ConnPoolWaitTime"))
    emit (.publish (name ++ "ConnPoolIdleTimeout"))
  emit (.httpHandle statsURL)
  if rowCacheConfig.Binary = "" then
    return (← getCp)
  modifyCp fun cp => { cp with rowCacheConfig := rowCacheConfig }
  modifyCp fun cp => { cp with capacity := 1024 - 50 }
  if rowCacheConfig.Connections > 0 then
    if rowCacheConfig.Connections ≤ 50 then
      logFatal ("insufficient capacity: " ++ toString rowCacheConfig.Connections)
    modifyCp fun cp => { cp with capacity := rowCacheConfig.Connections - 50 }
  return (← getCp)

/-- `NewCachePool(name, rowCacheConfig, idleTimeout)`. -/
def NewCachePool (name : String) (rowCacheConfig : RowCacheConfig) (idleTimeout : Int) :
    Res CachePool :=
  NewCachePoolBody name rowCacheConfig { cp := CachePool.zero name idleTimeout, trace := [] }

/-- `ioutil.TempFile(dir, pre)`: on success the file is named by the directory
(the system temp directory when `dir` is empty), the given beginning and a
random ending. -/
def TempFile (env : OpenEnv) (dir pre : String) : M (Except String String) := do
  emit (.tempFile dir pre)
  match env.tempFileErr with
  | some err => return .error err
  | none => return .ok ((if dir = "" then env.tmpDir else dir) ++ pre ++ env.suffix)

/-- `generateFilename()`. -/
def generateFilename (env : OpenEnv) : M String := do
  match ← TempFile env "" "mc" with
  | .error err => goPanic (.NewTabletError .ErrFatal ("error creating socket file: " ++ err))
  | .ok name =>
    emit (.fileClose name)
    if let some err := env.closeErr then
      goPanic (.NewTabletError .ErrFatal ("error closing socket file: " ++ err))
    emit (.remove name)
    if let some err := env.removeErr then
      goPanic (.NewTabletError .ErrFatal ("error removing socket file: " ++ err))
    return name

/-- Evaluation of `cp.cmd.Process` as the receiver of a call: a nil `cp.cmd`
or a nil `Process` is a nil dereference. -/
def cmdProcess : M Nat := do
  match (← getCp).cmd with
  | none => goPanic .nilDereference
  | some c =>
    match c.Process with
    | none => goPanic .nilDereference
    | some pid => return pid

/-- The `for` loop of `startMemcache`, entered with `attempts` failed dials so
far.  An iteration is repeated only after a failed dial, so `attempts` is also
the number of the iteration, and `env.probe attempts` is what this iteration
meets. -/
def startMemcacheLoop (env : OpenEnv) (attempts : Nat) : M Unit := do
  emit (.sleep 100)
  emit (.connect (← getCp).socket 30)
  match env.probe attempts with
  | .connectError _ =>
    if h : attempts + 1 ≥ 50 then
      emit (.kill (← cmdProcess))
      emit (.goWait (← cmdProcess))
      logFatal "Can't connect to memcache"
    else
      startMemcacheLoop env (attempts + 1)
  | .setError err =>
    emit (.set "health" "ok")
    goPanic (.NewTabletError .ErrFatal ("can't communicate with memcache: " ++ err))
  | .healthy =>
    emit (.set "health" "ok")
    emit .connClose
termination_by 50 - attempts
decreasing_by omega

/-- `cp.startMemcache()`. -/
def startMemcache (env : OpenEnv) : M Unit := do
  let cmd : Cmd := ⟨(← getCp).rowCacheConfig, (← getCp).socket, none⟩
  modifyCp fun cp => { cp with cmd := some cmd }
  emit (.start cmd)
  match env.startResult with
  | .error err => goPanic (.NewTabletError .ErrFatal ("can't start memcache: " ++ err))
  | .ok pid =>
    modifyCp fun cp => { cp with cmd := some { cmd with Process := some pid } }
    startMemcacheLoop env 0

/-- `cp.Open()`. -/
def Open (env : OpenEnv) : M Unit := do
  if (← getCp).pool ≠ none then
    goPanic (.NewTabletError .ErrFatal "rowcache is already open")
  if (← getCp).rowCacheConfig.Binary = "" then
    goPanic (.NewTabletError .ErrFatal "rowcache binary not specified")
  let name ← generateFilename env
  modifyCp fun cp => { cp with socket := name }
  startMemcache env
  let pool : ResourcePool := ⟨(← getCp).capacity, (← getCp).capacity, (← getCp).idleTimeout⟩
  emit (.newResourcePool pool)
  modifyCp fun cp => { cp with pool := some pool }
  if (← getCp).memcacheStats ≠ none then
    emit .statsOpen

/-- `cp.getPool()`. -/
def getPool : M (Option ResourcePool) := do
  return (← getCp).pool

/-- `cp.Close()`. -/
def Close : M Unit := do
  match ← getPool with
  | none => return
  | some pool =>
    emit (.poolClose pool)
    if (← getCp).pool = none then
      return
    if (← getCp).memcacheStats ≠ none then
      emit .statsClose
    emit (.kill (← cmdProcess))
    emit (.goWait (← cmdProcess))
    emit (.remove (← getCp).socket)
    modifyCp fun cp => { cp with socket := "" }
    modifyCp fun cp => { cp with pool := none }

/-- `cp.IsClosed()`. -/
def IsClosed : M Bool := do
  return (← getCp).pool.isNone

/-- `cp.Get(ctx)`; `acquire` is what `pool.Get(ctx)` returns if it is called. -/
def Get (ctx : Context) (acquire : Except String Connection) : M Connection := do
  match ← getPool with
  | none => goPanic (.NewTabletError .ErrFatal "cache pool is not open")
  | some pool =>
    emit (.poolGet pool ctx)
    match acquire with
    | .error err => goPanic (.NewTabletErrorSql .ErrFatal err)
    | .ok r => return r

/-- `cp.Put(conn)`. -/
def Put (conn : Option Connection) : M Unit := do
  match ← getPool with
  | none => return
  | some pool =>
    match conn with
    | none => emit (.poolPut pool none)
    | some c => emit (.poolPut pool (some c))

/-! ## Sequences of lifecycle calls -/

/-- One lifecycle call; an `Open` comes with the environment it runs in. -/
inductive Call
  | Open (env : OpenEnv)
  | Close

/-- The method a call invokes. -/
def Call.run : Call → M Unit
  | .Open env => Tabletserver.Open env
  | .Close => Tabletserver.Close

/-- The calls one after the other, as straight-line code: the first call that
does not return ends the run. -/
def runCalls : List Call → M Unit
  | [] => pure ()
  | c :: cs => do
    c.run
    runCalls cs

/-- The world after the calls when the caller recovers from each panic and goes
on with the next call; a fatal exit ends the run. -/
def afterCalls : List Call → World → World
  | [], w => w
  | c :: cs, w =>
    match c.run w with
    | .ret _ w1 => afterCalls cs w1
    | .panic _ w1 => afterCalls cs w1
    | .fatal _ w1 => w1

/-- Whether the event is a call of `pools.NewResourcePool`. -/
def Event.isNewResourcePool : Event → Bool
  | .newResourcePool _ => true
  | _ => false

/-- Whether the event is a dial, a call of `memcache.Connect`. -/
def Event.isConnect : Event → Bool
  | .connect _ _ => true
  | _ => false

/-- The calls made by `k` iterations of the health-check loop that all fail
to dial `socket`. -/
def failedProbes (socket : String) : Nat → List Event
  | 0 => []
  | k + 1 => [Event.sleep 100, Event.connect socket 30] ++ failedProbes socket k

/-- The second world is the first one after some more calls, none of them a
`NewResourcePool`, with the fields as they were. -/
def World.Quiet (w w1 : World) : Prop :=
  w1.cp = w.cp ∧ ∃ ext, w1.trace = w.trace ++ ext ∧ ∀ e ∈ ext, e.isNewResourcePool = false

/-- The calls `Open` makes once the pool exists: the stats start if there are any. -/
def statsOpenEvents (cp : CachePool) : List Event :=
  if cp.memcacheStats ≠ none then [Event.statsOpen] else []

/-- The calls `Close` makes before it kills the process: the stats stop if
there are any. -/
def statsCloseEvents (cp : CachePool) : List Event :=
  if cp.memcacheStats ≠ none then [Event.statsClose] else []

/-- The process of the manager's command, if it has a command that was started. -/
def CachePool.process (cp : CachePool) : Option Nat :=
  match cp.cmd with
  | none => none
  | some c => c.Process

/-- The fields no `Open` and no `Close` assigns are the same in both structs. -/
def CachePool.SameConfig (cp cp1 : CachePool) : Prop :=
  cp1.name = cp.name ∧ cp1.maxPrefix = cp.maxPrefix ∧ cp1.rowCacheConfig = cp.rowCacheConfig ∧
    cp1.capacity = cp.capacity ∧ cp1.idleTimeout = cp.idleTimeout ∧
    cp1.memcacheStats = cp.memcacheStats

/-- Whether the call returned normally. -/
def Res.returned {α : Type} : Res α → Bool
  | .ret _ _ => true
  | _ => false

/-! ## Concrete inputs -/

/-- A configuration with an executable and 100 requested connections. -/
def exampleConfig : RowCacheConfig := ⟨"/usr/bin/memcached", 100⟩

/-- An environment in which every external call of `Open` succeeds at once. -/
def exampleEnv : OpenEnv :=
  ⟨"/tmp/", "123", none, none, none, .ok 7, fun _ => .healthy⟩

/-- An environment in which the process starts but no dial ever succeeds. -/
def deafEnv : OpenEnv :=
  ⟨"/tmp/", "123", none, none, none, .ok 7, fun _ => .connectError "connection refused"⟩

/-- An environment in which the process cannot be started. -/
def noStartEnv : OpenEnv :=
  ⟨"/tmp/", "123", none, none, none, .error "exec: not found", fun _ => .healthy⟩

/-- The manager `NewCachePool("", exampleConfig, 0)` returns. -/
def exampleFresh : World :=
  ⟨{ name := "", pool := none, maxPrefix := 0, cmd := none, rowCacheConfig := exampleConfig,
     capacity := 50, socket := "", idleTimeout := 0, memcacheStats := none },
   [Event.httpHandle "/debug/memcache/"]⟩

/-- The manager `exampleFresh` after `Open` in `exampleEnv`. -/
def exampleOpened : World :=
  ⟨{ name := "", pool := some ⟨50, 50, 0⟩, maxPrefix := 0,
     cmd := some ⟨exampleConfig, "/tmp/mc123", some 7⟩, rowCacheConfig := exampleConfig,
     capacity := 50, socket := "/tmp/mc123", idleTimeout := 0, memcacheStats := none },
   [Event.httpHandle "/debug/memcache/", Event.tempFile "" "mc", Event.fileClose "/tmp/mc123",
    Event.remove "/tmp/mc123", Event.start ⟨exampleConfig, "/tmp/mc123", none⟩,
    Event.sleep 100, Event.connect "/tmp/mc123" 30, Event.set "health" "ok", Event.connClose,
    Event.newResourcePool ⟨50, 50, 0⟩]⟩

/-- The manager `exampleOpened` after `Close`. -/
def exampleReclosed : World :=
  ⟨{ exampleOpened.cp with pool := none, socket := "" },
   exampleOpened.trace ++ [Event.poolClose ⟨50, 50, 0⟩, Event.kill 7, Event.goWait 7,
     Event.remove "/tmp/mc123"]⟩

/-- The manager `exampleFresh` after an `Open` in `noStartEnv`, which panicked at
`cmd.Start`. -/
def exampleFailed : World :=
  ⟨{ name := "", pool := none, maxPrefix := 0, cmd := some ⟨exampleConfig, "/tmp/mc123", none⟩,
     rowCacheConfig := exampleConfig, capacity := 50, socket := "/tmp/mc123", idleTimeout := 0,
     memcacheStats := none },
   exampleFresh.trace ++ [Event.tempFile "" "mc", Event.fileClose "/tmp/mc123",
     Event.remove "/tmp/mc123", Event.start ⟨exampleConfig, "/tmp/mc123", none⟩]⟩

/-- The three per-`Open` fields are nested: an installed pool comes with a socket
address and a started process, and a socket address comes with a command. -/
def World.Nested (w : World) : Prop :=
  (w.cp.pool ≠ none → w.cp.socket ≠ "" ∧ w.cp.process ≠ none) ∧
    (w.cp.socket ≠ "" → w.cp.cmd ≠ none)

/-! ## Lemmas on the building blocks -/

section MonadLemmas
variable {α β : Type}

@[simp]
theorem bind_run (m : M α) (f : α → M β) (w : World) :
    (m >>= f) w = match m w with
      | .ret a w1 => f a w1
      | .panic v w1 => .panic v w1
      | .fatal msg w1 => .fatal msg w1 := rfl

@[simp]
theorem pure_run (a : α) (w : World) : (pure a : M α) w = .ret a w := rfl

@[simp]
theorem getCp_run (w : World) : getCp w = .ret w.cp w := rfl

@[simp]
theorem modifyCp_run (f : CachePool → CachePool) (w : World) :
    modifyCp f w = .ret () ⟨f w.cp, w.trace⟩ := rfl

@[simp]
theorem emit_run (e : Event) (w : World) : emit e w = .ret () ⟨w.cp, w.trace ++ [e]⟩ := rfl

@[simp]
theorem goPanic_run (v : PanicValue) (w : World) : (goPanic v : M α) w = .panic v w := rfl

@[simp]
theorem logFatal_run (msg : String) (w : World) : (logFatal msg : M α) w = .fatal msg w := rfl

@[simp]
theorem ite_run (c : Prop) [Decidable c] (m1 m2 : M α) (w : World) :
    (if c then m1 else m2) w = if c then m1 w else m2 w := by
  split <;> rfl

@[simp]
theorem dite_run (c : Prop) [Decidable c] (m1 : c → M α) (m2 : ¬c → M α) (w : World) :
    (if h : c then m1 h else m2 h) w = if h : c then m1 h w else m2 h w := by
  split <;> rfl

end MonadLemmas

theorem World.Quiet.self (w : World) : w.Quiet w :=
  ⟨rfl, [], by simp, by simp⟩

theorem World.Quiet.trans {w w1 w2 : World} (h1 : w.Quiet w1) (h2 : w1.Quiet w2) :
    w.Quiet w2 := by
  obtain ⟨hc1, e1, ht1, hp1⟩ := h1
  obtain ⟨hc2, e2, ht2, hp2⟩ := h2
  refine ⟨hc2.trans hc1, e1 ++ e2, by rw [ht2, ht1, List.append_assoc], ?_⟩
  intro e he
  rcases List.mem_append.mp he with h | h
  · exact hp1 e h
  · exact hp2 e h

theorem World.Quiet.emit (w : World) (e : Event) (he : e.isNewResourcePool = false) :
    w.Quiet { cp := w.cp, trace := w.trace ++ [e] } :=
  ⟨rfl, [e], rfl, by simpa using he⟩

theorem cmdProcess_cases (w : World) :
    cmdProcess w = .panic .nilDereference w ∨
      ∃ c pid, w.cp.cmd = some c ∧ c.Process = some pid ∧ cmdProcess w = .ret pid w := by
  unfold cmdProcess
  simp only [bind_run, getCp]
  cases hc : w.cp.cmd with
  | none => exact Or.inl rfl
  | some c =>
    cases hp : c.Process with
    | none => left; simp [hp, goPanic]
    | some pid => right; exact ⟨c, pid, rfl, hp, by simp [hp, pure_run]⟩

theorem cmdProcess_eq (cp : CachePool) (tr : List Event) (c : Cmd) (pid : Nat)
    (hc : cp.cmd = some c) (hp : c.Process = some pid) :
    cmdProcess ⟨cp, tr⟩ = .ret pid ⟨cp, tr⟩ := by
  unfold cmdProcess
  simp [bind_run, getCp, hc, hp, pure_run]

theorem startMemcacheLoop_quiet (env : OpenEnv) (a : Nat) (w : World) :
    w.Quiet (startMemcacheLoop env a w).world := by
  induction a using startMemcacheLoop.induct env generalizing w with
  | case1 a ih =>
    rw [startMemcacheLoop]
    simp only [bind_run, getCp, emit]
    have q2 : w.Quiet ⟨w.cp, w.trace ++ [Event.sleep 100] ++ [Event.connect w.cp.socket 30]⟩ :=
      (World.Quiet.emit w _ (by rfl)).trans (World.Quiet.emit _ _ (by rfl))
    cases hp : env.probe a with
    | connectError err =>
      by_cases h : a + 1 ≥ 50
      · simp only [h, dite_true, bind_run, emit, logFatal]
        rcases cmdProcess_cases ⟨w.cp, w.trace ++ [Event.sleep 100] ++
          [Event.connect w.cp.socket 30]⟩ with h1 | ⟨c, pid, hc, hpid, h1⟩
        · rw [h1]; exact q2
        · rw [h1]
          simp only []
          rw [cmdProcess_eq w.cp _ c pid hc hpid]
          exact q2.trans ((World.Quiet.emit _ _ (by rfl)).trans (World.Quiet.emit _ _ (by rfl)))
      · simp only [h, dite_false]
        exact q2.trans (ih h _)
    | setError err =>
      simp only [bind_run, emit, goPanic, Res.world]
      exact q2.trans (World.Quiet.emit _ _ (by rfl))
    | healthy =>
      simp only [bind_run, emit, Res.world]
      exact q2.trans ((World.Quiet.emit _ _ (by rfl)).trans (World.Quiet.emit _ _ (by rfl)))

theorem append_mc_ne_empty (a b : String) : a ++ "mc" ++ b ≠ "" := by
  intro h
  have := congrArg String.data h
  simp at this

theorem generateFilename_quiet (env : OpenEnv) (w : World) :
    w.Quiet (generateFilename env w).world := by
  unfold generateFilename TempFile
  simp only [bind_run, emit]
  have q1 : w.Quiet ⟨w.cp, w.trace ++ [Event.tempFile "" "mc"]⟩ := World.Quiet.emit w _ (by rfl)
  cases h1 : env.tempFileErr with
  | some err => simpa [pure_run, goPanic, Res.world] using q1
  | none =>
    simp only [pure_run, bind_run, emit]
    cases h2 : env.closeErr with
    | some err =>
      simp only [goPanic, Res.world]
      exact q1.trans (World.Quiet.emit _ _ (by rfl))
    | none =>
      cases h3 : env.removeErr with
      | some err =>
        simp only [pure_run, bind_run, emit, goPanic, Res.world]
        exact q1.trans ((World.Quiet.emit _ _ (by rfl)).trans (World.Quiet.emit _ _ (by rfl)))
      | none =>
        simp only [pure_run, bind_run, emit, Res.world]
        exact q1.trans ((World.Quiet.emit _ _ (by rfl)).trans (World.Quiet.emit _ _ (by rfl)))

theorem generateFilename_ret (env : OpenEnv) (w w1 : World) (name : String)
    (h : generateFilename env w = .ret name w1) : name ≠ "" := by
  unfold generateFilename TempFile at h
  simp only [bind_run, emit] at h
  cases h1 : env.tempFileErr with
  | some err => simp [h1, pure_run, goPanic] at h
  | none =>
    simp only [h1, pure_run, bind_run, emit] at h
    cases h2 : env.closeErr with
    | some err => simp [h2, goPanic, bind_run] at h
    | none =>
      cases h3 : env.removeErr with
      | some err => simp [h2, h3, pure_run, bind_run, emit, goPanic] at h
      | none =>
        simp [h2, h3, pure_run, bind_run, emit] at h
        rw [← h.1]
        exact append_mc_ne_empty _ _

theorem startMemcache_eq (env : OpenEnv) (w : World) :
    startMemcache env w =
      match env.startResult with
      | .error err =>
        .panic (.NewTabletError .ErrFatal ("can't start memcache: " ++ err))
          ⟨{ w.cp with cmd := some ⟨w.cp.rowCacheConfig, w.cp.socket, none⟩ },
            w.trace ++ [Event.start ⟨w.cp.rowCacheConfig, w.cp.socket, none⟩]⟩
      | .ok pid =>
        startMemcacheLoop env 0
          ⟨{ w.cp with cmd := some ⟨w.cp.rowCacheConfig, w.cp.socket, some pid⟩ },
            w.trace ++ [Event.start ⟨w.cp.rowCacheConfig, w.cp.socket, none⟩]⟩ := by
  unfold startMemcache
  simp only [bind_run, getCp, modifyCp, emit, pure_run]
  cases env.startResult <;> simp [goPanic, bind_run, modifyCp]

theorem Open_eq (env : OpenEnv) (w : World) :
    Open env w =
      if w.cp.pool ≠ none then
        .panic (.NewTabletError .ErrFatal "rowcache is already open") w
      else if w.cp.rowCacheConfig.Binary = "" then
        .panic (.NewTabletError .ErrFatal "rowcache binary not specified") w
      else
        match generateFilename env w with
        | .panic v w1 => .panic v w1
        | .fatal msg w1 => .fatal msg w1
        | .ret name w1 =>
          match startMemcache env ⟨{ w1.cp with socket := name }, w1.trace⟩ with
          | .panic v w2 => .panic v w2
          | .fatal msg w2 => .fatal msg w2
          | .ret _ w2 =>
            .ret () ⟨{ w2.cp with
                pool := some ⟨w2.cp.capacity, w2.cp.capacity, w2.cp.idleTimeout⟩ },
              w2.trace ++ [Event.newResourcePool
                ⟨w2.cp.capacity, w2.cp.capacity, w2.cp.idleTimeout⟩] ++ statsOpenEvents w2.cp⟩ := by
  unfold Open
  by_cases h1 : w.cp.pool = none
  · by_cases h2 : w.cp.rowCacheConfig.Binary = ""
    · simp [h1, h2]
    · simp only [bind_run, getCp_run, ite_run, h1, h2, ne_eq, not_true_eq_false, if_false,
        pure_run]
      cases generateFilename env w with
      | panic v w1 => rfl
      | fatal msg w1 => rfl
      | ret name w1 =>
        simp only [modifyCp_run]
        cases startMemcache env ⟨{ w1.cp with socket := name }, w1.trace⟩ with
        | panic v w2 => rfl
        | fatal msg w2 => rfl
        | ret u w2 =>
          by_cases h3 : w2.cp.memcacheStats = none <;> simp [h3, statsOpenEvents]
  · simp [h1]

theorem cmdProcess_run (w : World) :
    cmdProcess w =
      match w.cp.process with
      | none => .panic .nilDereference w
      | some pid => .ret pid w := by
  unfold cmdProcess CachePool.process
  cases hc : w.cp.cmd with
  | none => simp [hc]
  | some c => cases hp : c.Process <;> simp [hc, hp]

theorem Close_eq (w : World) :
    Close w =
      match w.cp.pool with
      | none => .ret () w
      | some pool =>
        match w.cp.process with
        | none =>
          .panic .nilDereference ⟨w.cp, w.trace ++ [Event.poolClose pool] ++ statsCloseEvents w.cp⟩
        | some pid =>
          .ret () ⟨{ w.cp with socket := "", pool := none },
            w.trace ++ [Event.poolClose pool] ++ statsCloseEvents w.cp ++
              [Event.kill pid, Event.goWait pid, Event.remove w.cp.socket]⟩ := by
  unfold Close getPool
  cases h1 : w.cp.pool with
  | none => simp [h1]
  | some pool =>
    cases h2 : w.cp.process with
    | none =>
      by_cases h3 : w.cp.memcacheStats = none <;>
        simp [h1, h2, h3, cmdProcess_run, statsCloseEvents]
    | some pid =>
      by_cases h3 : w.cp.memcacheStats = none <;>
        simp [h1, h2, h3, cmdProcess_run, statsCloseEvents]

theorem Open_exampleFresh : Open exampleEnv exampleFresh = .ret () exampleOpened := by
  rw [Open_eq]
  simp [exampleFresh, exampleConfig, generateFilename, TempFile, exampleEnv, startMemcache_eq]
  rw [startMemcacheLoop]
  simp [statsOpenEvents, exampleOpened, exampleConfig]

theorem Close_exampleOpened : Close exampleOpened = .ret () exampleReclosed := by
  rw [Close_eq]
  simp [exampleOpened, exampleReclosed, CachePool.process, statsCloseEvents]

theorem NewCachePool_exampleFresh :
    NewCachePool "" exampleConfig 0 = .ret exampleFresh.cp exampleFresh := by
  decide

theorem Get_eq (ctx : Context) (acquire : Except String Connection) (w : World) :
    Get ctx acquire w =
      match w.cp.pool with
      | none => .panic (.NewTabletError .ErrFatal "cache pool is not open") w
      | some pool =>
        match acquire with
        | .error err =>
          .panic (.NewTabletErrorSql .ErrFatal err) ⟨w.cp, w.trace ++ [Event.poolGet pool ctx]⟩
        | .ok r => .ret r ⟨w.cp, w.trace ++ [Event.poolGet pool ctx]⟩ := by
  unfold Get getPool
  cases h1 : w.cp.pool with
  | none => simp [h1]
  | some pool => cases acquire <;> simp [h1]

theorem Put_eq (conn : Option Connection) (w : World) :
    Put conn w =
      match w.cp.pool with
      | none => .ret () w
      | some pool => .ret () ⟨w.cp, w.trace ++ [Event.poolPut pool conn]⟩ := by
  unfold Put getPool
  cases h1 : w.cp.pool with
  | none => simp [h1]
  | some pool => cases conn <;> simp [h1]

theorem NewCachePool_eq (name : String) (cfg : RowCacheConfig) (idle : Int) :
    ∃ tr : List Event, (∀ e ∈ tr, e.isNewResourcePool = false) ∧
      NewCachePool name cfg idle =
        if cfg.Binary = "" then
          .ret { CachePool.zero name idle with
              memcacheStats := if name ≠ "" then some ⟨true, false, false⟩ else none }
            ⟨{ CachePool.zero name idle with
              memcacheStats := if name ≠ "" then some ⟨true, false, false⟩ else none }, tr⟩
        else if 0 < cfg.Connections ∧ cfg.Connections ≤ 50 then
          .fatal ("insufficient capacity: " ++ toString cfg.Connections)
            ⟨{ CachePool.zero name idle with
              memcacheStats := if name ≠ "" then some ⟨true, false, false⟩ else none,
              rowCacheConfig := cfg, capacity := 974 }, tr⟩
        else
          .ret { CachePool.zero name idle with
              memcacheStats := if name ≠ "" then some ⟨true, false, false⟩ else none,
              rowCacheConfig := cfg,
              capacity := if 0 < cfg.Connections then cfg.Connections - 50 else 974 }
            ⟨{ CachePool.zero name idle with
              memcacheStats := if name ≠ "" then some ⟨true, false, false⟩ else none,
              rowCacheConfig := cfg,
              capacity := if 0 < cfg.Connections then cfg.Connections - 50 else 974 }, tr⟩ := by
  by_cases hn : name = ""
  · refine ⟨[Event.httpHandle statsURL], by simp [Event.isNewResourcePool], ?_⟩
    unfold NewCachePool NewCachePoolBody
    by_cases hb : cfg.Binary = ""
    · simp [hn, hb, CachePool.zero]
    · by_cases h0 : 0 < cfg.Connections
      · by_cases h50 : cfg.Connections ≤ 50 <;> simp [hn, hb, h0, h50, CachePool.zero]
      · simp [hn, hb, h0, CachePool.zero]
  · refine ⟨[Event.publish (name ++ "ConnPoolCapacity"), Event.publish (name ++ "ConnPoolAvailable"),
      Event.publish (name ++ "ConnPoolMaxCap"), Event.publish (name ++ "ConnPoolWaitCount"),
      Event.publish (name ++ "ConnPoolWaitTime"), Event.publish (name ++ "ConnPoolIdleTimeout"),
      Event.httpHandle statsURL], by simp [Event.isNewResourcePool], ?_⟩
    unfold NewCachePool NewCachePoolBody
    by_cases hb : cfg.Binary = ""
    · simp [hn, hb, CachePool.zero]
    · by_cases h0 : 0 < cfg.Connections
      · by_cases h50 : cfg.Connections ≤ 50 <;> simp [hn, hb, h0, h50, CachePool.zero]
      · simp [hn, hb, h0, CachePool.zero]

theorem CachePool.SameConfig.unchanged (cp : CachePool) : cp.SameConfig cp :=
  ⟨rfl, rfl, rfl, rfl, rfl, rfl⟩

theorem startMemcache_summary (env : OpenEnv) (w : World) :
    (startMemcache env w).world.cp.cmd ≠ none ∧
    w.cp.SameConfig (startMemcache env w).world.cp ∧
    (startMemcache env w).world.cp.pool = w.cp.pool ∧
    (startMemcache env w).world.cp.socket = w.cp.socket ∧
    (∃ ext, (startMemcache env w).world.trace = w.trace ++ ext ∧
      ∀ e ∈ ext, e.isNewResourcePool = false) ∧
    ((startMemcache env w).returned = true → (startMemcache env w).world.cp.process ≠ none) := by
  rw [startMemcache_eq]
  cases env.startResult with
  | error err =>
    refine ⟨by simp [Res.world], CachePool.SameConfig.unchanged _, rfl, rfl,
      ⟨[Event.start ⟨w.cp.rowCacheConfig, w.cp.socket, none⟩], rfl, ?_⟩, ?_⟩
    · simp [Event.isNewResourcePool]
    · simp [Res.returned]
  | ok pid =>
    simp only []
    obtain ⟨hcp, ext, htr, hq⟩ := startMemcacheLoop_quiet env 0
      ⟨{ w.cp with cmd := some ⟨w.cp.rowCacheConfig, w.cp.socket, some pid⟩ },
        w.trace ++ [Event.start ⟨w.cp.rowCacheConfig, w.cp.socket, none⟩]⟩
    rw [hcp]
    refine ⟨by simp, CachePool.SameConfig.unchanged _, rfl, rfl,
      ⟨Event.start ⟨w.cp.rowCacheConfig, w.cp.socket, none⟩ :: ext, ?_, ?_⟩, ?_⟩
    · rw [htr]; simp
    · intro e he
      rcases List.mem_cons.mp he with h | h
      · rw [h]; rfl
      · exact hq e h
    · intro _
      simp [CachePool.process]

theorem Open_summary (env : OpenEnv) (w : World) :
    w.cp.SameConfig (Open env w).world.cp ∧
    (∃ ext, (Open env w).world.trace = w.trace ++ ext ∧
      ∀ p, Event.newResourcePool p ∈ ext →
        p = ⟨w.cp.capacity, w.cp.capacity, w.cp.idleTimeout⟩) ∧
    ((Open env w).returned = true →
      w.cp.pool = none ∧ w.cp.rowCacheConfig.Binary ≠ "" ∧
      (Open env w).world.cp.pool = some ⟨w.cp.capacity, w.cp.capacity, w.cp.idleTimeout⟩ ∧
      Event.newResourcePool ⟨w.cp.capacity, w.cp.capacity, w.cp.idleTimeout⟩ ∈
        (Open env w).world.trace ∧
      (Open env w).world.cp.socket ≠ "" ∧ (Open env w).world.cp.process ≠ none) ∧
    ((Open env w).returned = false →
      (Open env w).world.cp.pool = w.cp.pool ∧
      (((Open env w).world.cp.socket = w.cp.socket ∧ (Open env w).world.cp.cmd = w.cp.cmd) ∨
        ((Open env w).world.cp.socket ≠ "" ∧ (Open env w).world.cp.cmd ≠ none))) := by
  have same : ∀ v : Res Unit, w.Quiet v.world → v.returned = false →
      w.cp.SameConfig v.world.cp ∧
      (∃ ext, v.world.trace = w.trace ++ ext ∧
        ∀ p, Event.newResourcePool p ∈ ext →
          p = ⟨w.cp.capacity, w.cp.capacity, w.cp.idleTimeout⟩) ∧
      (v.returned = true →
        w.cp.pool = none ∧ w.cp.rowCacheConfig.Binary ≠ "" ∧
        v.world.cp.pool = some ⟨w.cp.capacity, w.cp.capacity, w.cp.idleTimeout⟩ ∧
        Event.newResourcePool ⟨w.cp.capacity, w.cp.capacity, w.cp.idleTimeout⟩ ∈
          v.world.trace ∧
        v.world.cp.socket ≠ "" ∧ v.world.cp.process ≠ none) ∧
      (v.returned = false →
        v.world.cp.pool = w.cp.pool ∧
        ((v.world.cp.socket = w.cp.socket ∧ v.world.cp.cmd = w.cp.cmd) ∨
          (v.world.cp.socket ≠ "" ∧ v.world.cp.cmd ≠ none))) := by
    intro v hv hr
    obtain ⟨hcp, ext, htr, hq⟩ := hv
    rw [hcp]
    refine ⟨CachePool.SameConfig.unchanged _, ⟨ext, htr, ?_⟩, ?_, ?_⟩
    · intro p hp
      have := hq _ hp
      simp [Event.isNewResourcePool] at this
    · intro h; rw [hr] at h; exact absurd h (by decide)
    · intro _; exact ⟨rfl, Or.inl ⟨rfl, rfl⟩⟩
  rw [Open_eq]
  by_cases h1 : w.cp.pool = none
  swap
  · rw [if_pos h1]; exact same _ (World.Quiet.self w) rfl
  rw [if_neg (not_not.mpr h1)]
  by_cases h2 : w.cp.rowCacheConfig.Binary = ""
  · rw [if_pos h2]; exact same _ (World.Quiet.self w) rfl
  rw [if_neg h2]
  have hq := generateFilename_quiet env w
  have hname := generateFilename_ret env w
  cases hg : generateFilename env w with
  | panic v w1 => rw [hg] at hq; exact same _ hq rfl
  | fatal msg w1 => rw [hg] at hq; exact same _ hq rfl
  | ret name w1 =>
    rw [hg] at hq
    obtain ⟨hcp1, ext1, htr1, hq1⟩ := hq
    simp only [Res.world] at hcp1 htr1
    have hne : name ≠ "" := hname w1 name hg
    have key := startMemcache_summary env ⟨{ w1.cp with socket := name }, w1.trace⟩
    simp only []
    generalize startMemcache env ⟨{ w1.cp with socket := name }, w1.trace⟩ = r at key ⊢
    obtain ⟨hcmd, ⟨s1, s2, s3, s4, s5, s6⟩, hpool, hsock, ⟨ext2, htr2, hq2⟩, hproc⟩ := key
    simp only [hcp1, htr1] at hpool hsock s1 s2 s3 s4 s5 s6 htr2
    have quiet12 : ∀ p, Event.newResourcePool p ∈ ext1 ++ ext2 →
        p = ⟨w.cp.capacity, w.cp.capacity, w.cp.idleTimeout⟩ := by
      intro p hp
      rcases List.mem_append.mp hp with h | h
      · have := hq1 _ h
        simp [Event.isNewResourcePool] at this
      · have := hq2 _ h
        simp [Event.isNewResourcePool] at this
    cases r with
    | panic v w2 =>
      simp only [Res.world] at hcmd hpool hsock s1 s2 s3 s4 s5 s6 htr2 ⊢
      refine ⟨⟨s1, s2, s3, s4, s5, s6⟩, ⟨ext1 ++ ext2, ?_, quiet12⟩, ?_, ?_⟩
      · rw [htr2, List.append_assoc]
      · intro h; simp [Res.returned] at h
      · intro _
        exact ⟨hpool, Or.inr ⟨by rw [hsock]; exact hne, hcmd⟩⟩
    | fatal msg w2 =>
      simp only [Res.world] at hcmd hpool hsock s1 s2 s3 s4 s5 s6 htr2 ⊢
      refine ⟨⟨s1, s2, s3, s4, s5, s6⟩, ⟨ext1 ++ ext2, ?_, quiet12⟩, ?_, ?_⟩
      · rw [htr2, List.append_assoc]
      · intro h; simp [Res.returned] at h
      · intro _
        exact ⟨hpool, Or.inr ⟨by rw [hsock]; exact hne, hcmd⟩⟩
    | ret u w2 =>
      simp only [Res.world] at hcmd hpool hsock s1 s2 s3 s4 s5 s6 htr2 hproc ⊢
      have hproc2 := hproc rfl
      refine ⟨⟨s1, s2, s3, s4, s5, s6⟩,
        ⟨ext1 ++ ext2 ++ ([Event.newResourcePool
          ⟨w2.cp.capacity, w2.cp.capacity, w2.cp.idleTimeout⟩] ++ statsOpenEvents w2.cp),
          ?_, ?_⟩, ?_, ?_⟩
      · rw [htr2]; simp [List.append_assoc]
      · intro p hp
        rcases List.mem_append.mp hp with h | h
        · exact quiet12 p h
        · rw [s4, s5] at h
          unfold statsOpenEvents at h
          by_cases h3 : w2.cp.memcacheStats = none <;> simp [h3] at h <;> exact h
      · intro _
        refine ⟨h1, h2, by rw [s4, s5], ?_, by rw [hsock]; exact hne, ?_⟩
        · rw [s4, s5]; simp
        · simpa [CachePool.process] using hproc2
      · intro h; simp [Res.returned] at h

theorem Close_ret_pool (w w1 : World) (h : Close w = .ret () w1) : w1.cp.pool = none := by
  rw [Close_eq] at h
  cases h1 : w.cp.pool with
  | none =>
    simp only [h1, Res.ret.injEq, true_and] at h
    rw [← h, h1]
  | some pool =>
    cases h2 : w.cp.process with
    | none => simp [h1, h2] at h
    | some pid =>
      simp only [h1, h2, Res.ret.injEq, true_and] at h
      rw [← h]

theorem Open_ret_pool (env : OpenEnv) (w w1 : World) (h : Open env w = .ret () w1) :
    w1.cp.pool ≠ none := by
  have hs := (Open_summary env w).2.2.1
  rw [h] at hs
  have := (hs rfl).2.2.1
  simp only [Res.world] at this
  rw [this]
  simp

theorem runCalls_cons (c : Call) (cs : List Call) (w : World) :
    runCalls (c :: cs) w =
      match c.run w with
      | .ret _ w1 => runCalls cs w1
      | .panic v w1 => .panic v w1
      | .fatal msg w1 => .fatal msg w1 := by
  rw [runCalls, bind_run]
  cases c.run w <;> rfl

theorem runCalls_last (cs : List Call) :
    ∀ w0 w : World, runCalls cs w0 = .ret () w →
      (cs = [] → w = w0) ∧ (cs.getLast? = some Call.Close → w.cp.pool = none) ∧
      (∀ env, cs.getLast? = some (Call.Open env) → w.cp.pool ≠ none) := by
  induction cs with
  | nil =>
    intro w0 w h
    have : w0 = w := by simpa [runCalls] using h
    exact ⟨fun _ => this.symm, by simp, by simp⟩
  | cons c cs ih =>
    intro w0 w h
    rw [runCalls_cons] at h
    cases hc : c.run w0 with
    | panic v w1 => simp [hc] at h
    | fatal msg w1 => simp [hc] at h
    | ret u w1 =>
      simp only [hc] at h
      obtain ⟨ih1, ih2, ih3⟩ := ih w1 w h
      refine ⟨by simp, ?_, ?_⟩
      · intro hl
        cases cs with
        | nil =>
          rw [ih1 rfl]
          simp only [List.getLast?_singleton, Option.some.injEq] at hl
          rw [hl] at hc
          exact Close_ret_pool w0 w1 hc
        | cons d ds =>
          rw [List.getLast?_cons_cons] at hl
          exact ih2 hl
      · intro env hl
        cases cs with
        | nil =>
          rw [ih1 rfl]
          simp only [List.getLast?_singleton, Option.some.injEq] at hl
          rw [hl] at hc
          exact Open_ret_pool env w0 w1 hc
        | cons d ds =>
          rw [List.getLast?_cons_cons] at hl
          exact ih3 env hl

theorem NewCachePool_ret (name : String) (cfg : RowCacheConfig) (idle : Int) (cp0 : CachePool)
    (w0 : World) (h : NewCachePool name cfg idle = .ret cp0 w0) :
    w0.cp = cp0 ∧ cp0.pool = none ∧ cp0.cmd = none ∧ cp0.socket = "" ∧
      (∀ e ∈ w0.trace, e.isNewResourcePool = false) := by
  obtain ⟨tr, htr, heq⟩ := NewCachePool_eq name cfg idle
  rw [heq] at h
  by_cases hb : cfg.Binary = ""
  · simp only [hb, if_true, Res.ret.injEq] at h
    obtain ⟨h1, h2⟩ := h
    subst h1
    subst h2
    exact ⟨rfl, rfl, rfl, rfl, htr⟩
  · by_cases hc : 0 < cfg.Connections ∧ cfg.Connections ≤ 50
    · simp [hb, hc] at h
    · simp only [hb, hc, if_false, Res.ret.injEq] at h
      obtain ⟨h1, h2⟩ := h
      subst h1
      subst h2
      exact ⟨rfl, rfl, rfl, rfl, htr⟩

theorem IsClosed_run (w : World) : IsClosed w = .ret w.cp.pool.isNone w := rfl

theorem Close_summary (w : World) :
    w.cp.SameConfig (Close w).world.cp ∧ (Close w).world.cp.cmd = w.cp.cmd ∧
    (∃ ext, (Close w).world.trace = w.trace ++ ext ∧ ∀ e ∈ ext, e.isNewResourcePool = false) ∧
    ((Close w).world.cp = w.cp ∨
      (w.cp.pool ≠ none ∧ (Close w).world.cp.pool = none ∧ (Close w).world.cp.socket = "")) := by
  rw [Close_eq]
  cases h1 : w.cp.pool with
  | none => exact ⟨CachePool.SameConfig.unchanged _, rfl, ⟨[], by simp [Res.world], by simp⟩, Or.inl rfl⟩
  | some pool =>
    have hstats : ∀ e ∈ statsCloseEvents w.cp, e.isNewResourcePool = false := by
      intro e he
      unfold statsCloseEvents at he
      by_cases h3 : w.cp.memcacheStats = none <;> simp [h3] at he
      rw [he]; rfl
    cases h2 : w.cp.process with
    | none =>
      refine ⟨CachePool.SameConfig.unchanged _, rfl,
        ⟨[Event.poolClose pool] ++ statsCloseEvents w.cp, by simp [Res.world], ?_⟩, Or.inl rfl⟩
      intro e he
      rcases List.mem_append.mp he with h | h
      · simp at h; rw [h]; rfl
      · exact hstats e h
    | some pid =>
      refine ⟨CachePool.SameConfig.unchanged _, rfl,
        ⟨[Event.poolClose pool] ++ statsCloseEvents w.cp ++
          [Event.kill pid, Event.goWait pid, Event.remove w.cp.socket], by simp [Res.world], ?_⟩,
        Or.inr ⟨by simp, rfl, rfl⟩⟩
      intro e he
      rcases List.mem_append.mp he with h | h
      · rcases List.mem_append.mp h with h | h
        · simp at h; rw [h]; rfl
        · exact hstats e h
      · simp at h
        rcases h with h | h | h <;> rw [h] <;> rfl

theorem afterCalls_invariant (P : World → Prop)
    (hstep : ∀ (c : Call) (w : World), P w → P (c.run w).world) (cs : List Call) :
    ∀ w : World, P w → P (afterCalls cs w) := by
  induction cs with
  | nil => intro w hw; exact hw
  | cons c cs ih =>
    intro w hw
    have h := hstep c w hw
    unfold afterCalls
    cases hc : c.run w with
    | ret u w1 => rw [hc] at h; exact ih w1 h
    | panic v w1 => rw [hc] at h; exact ih w1 h
    | fatal msg w1 => rw [hc] at h; exact h

theorem capacity_step (k : Int) (c : Call) (w : World)
    (h : w.cp.capacity = k ∧
      ∀ p, Event.newResourcePool p ∈ w.trace → p.capacity = k ∧ p.maxCap = k) :
    (c.run w).world.cp.capacity = k ∧
      ∀ p, Event.newResourcePool p ∈ (c.run w).world.trace → p.capacity = k ∧ p.maxCap = k := by
  obtain ⟨hk, htr⟩ := h
  cases c with
  | Open env =>
    obtain ⟨⟨-, -, -, hcap, -, -⟩, ⟨ext, hext, hnew⟩, -, -⟩ := Open_summary env w
    refine ⟨by simp only [Call.run]; rw [hcap, hk], ?_⟩
    intro p hp
    simp only [Call.run] at hp
    rw [hext] at hp
    rcases List.mem_append.mp hp with h | h
    · exact htr p h
    · rw [hnew p h]; exact ⟨hk, hk⟩
  | Close =>
    obtain ⟨⟨-, -, -, hcap, -, -⟩, -, ⟨ext, hext, hq⟩, -⟩ := Close_summary w
    refine ⟨by simp only [Call.run]; rw [hcap, hk], ?_⟩
    intro p hp
    simp only [Call.run] at hp
    rw [hext] at hp
    rcases List.mem_append.mp hp with h | h
    · exact htr p h
    · have := hq _ h
      simp [Event.isNewResourcePool] at this

theorem Open_fault_state (env : OpenEnv) (w : World) (h : w.cp.pool ≠ none) :
    (Open env w).world = w := by
  rw [Open_eq, if_pos h]
  rfl

theorem process_ne_none_cmd (cp : CachePool) (h : cp.process ≠ none) : cp.cmd ≠ none := by
  intro hc
  apply h
  simp [CachePool.process, hc]

theorem nested_step (c : Call) (w : World) (h : w.Nested) : (c.run w).world.Nested := by
  obtain ⟨hp, hs⟩ := h
  cases c with
  | Open env =>
    simp only [Call.run]
    obtain ⟨-, -, hret, hnot⟩ := Open_summary env w
    cases hr : (Open env w).returned with
    | true =>
      obtain ⟨-, -, -, -, hsock, hproc⟩ := hret hr
      exact ⟨fun _ => ⟨hsock, hproc⟩, fun _ => process_ne_none_cmd _ hproc⟩
    | false =>
      obtain ⟨hpool, hcase⟩ := hnot hr
      rcases hcase with ⟨h1, h2⟩ | ⟨h1, h2⟩
      · constructor
        · intro hne
          rw [hpool] at hne
          obtain ⟨a, b⟩ := hp hne
          refine ⟨by rw [h1]; exact a, ?_⟩
          simpa [CachePool.process, h2] using b
        · intro hne
          rw [h1] at hne
          rw [h2]
          exact hs hne
      · constructor
        · intro hne
          rw [hpool] at hne
          obtain ⟨a, b⟩ := hp hne
          refine ⟨h1, ?_⟩
          have e := Open_fault_state env w hne
          rw [e]
          exact b
        · intro _
          exact h2
  | Close =>
    simp only [Call.run]
    obtain ⟨-, hcmd, -, hcase⟩ := Close_summary w
    rcases hcase with h1 | ⟨-, h2, h3⟩
    · unfold World.Nested
      rw [h1]
      exact ⟨hp, hs⟩
    · exact ⟨fun hne => absurd h2 hne, fun hne => absurd h3 hne⟩

theorem Open_noStart :
    Open noStartEnv exampleFresh =
      .panic (.NewTabletError .ErrFatal ("can't start memcache: " ++ "exec: not found"))
        exampleFailed := by
  rw [Open_eq]
  simp [exampleFresh, exampleConfig, generateFilename, TempFile, noStartEnv, startMemcache_eq,
    exampleFailed]

theorem failedProbes_count (socket : String) (k : Nat) :
    (failedProbes socket k).countP Event.isConnect = k := by
  induction k with
  | zero => rfl
  | succ k ih =>
    simp only [failedProbes, List.cons_append, List.nil_append]
    rw [List.countP_cons_of_neg _ _ (by simp [Event.isConnect]),
      List.countP_cons_of_pos _ _ (by simp [Event.isConnect]), ih]

theorem failedProbes_succ (socket : String) (k : Nat) :
    failedProbes socket (k + 1) =
      [Event.sleep 100, Event.connect socket 30] ++ failedProbes socket k := rfl

theorem startMemcacheLoop_all_fail (env : OpenEnv)
    (hfail : ∀ i, ∃ err, env.probe i = .connectError err) (a : Nat) :
    ∀ (w : World) (pid : Nat), a < 50 → w.cp.process = some pid →
      startMemcacheLoop env a w =
        .fatal "Can't connect to memcache"
          ⟨w.cp, w.trace ++ failedProbes w.cp.socket (50 - a) ++
            [Event.kill pid, Event.goWait pid]⟩ := by
  induction a using startMemcacheLoop.induct env with
  | case1 a ih =>
    intro w pid ha hp
    obtain ⟨err, herr⟩ := hfail a
    rw [startMemcacheLoop]
    simp only [bind_run, getCp_run, emit_run, herr, dite_run]
    by_cases h : a + 1 ≥ 50
    · have ha49 : 50 - a = 1 := by omega
      simp [h, cmdProcess_run, hp, ha49, failedProbes]
    · have hk : 50 - a = (50 - (a + 1)) + 1 := by omega
      simp only [h, dite_false]
      rw [ih h ⟨w.cp, w.trace ++ [Event.sleep 100] ++ [Event.connect w.cp.socket 30]⟩ pid
        (by omega) hp, hk, failedProbes_succ]
      simp

theorem startMemcacheLoop_dials (env : OpenEnv) (a : Nat) :
    ∀ w : World, a < 50 →
      ∃ ext, (startMemcacheLoop env a w).world.trace = w.trace ++ ext ∧
        ext.countP Event.isConnect ≤ 50 - a := by
  induction a using startMemcacheLoop.induct env with
  | case1 a ih =>
    intro w ha
    rw [startMemcacheLoop]
    simp only [bind_run, getCp_run, emit_run]
    cases hp : env.probe a with
    | connectError err =>
      by_cases h : a + 1 ≥ 50
      · simp only [h, dite_run, dite_true, bind_run, emit_run, logFatal_run, cmdProcess_run]
        cases hproc : w.cp.process with
        | none =>
          refine ⟨[Event.sleep 100, Event.connect w.cp.socket 30], by simp [Res.world], ?_⟩
          simp [Event.isConnect, List.countP_cons]
          omega
        | some pid =>
          refine ⟨[Event.sleep 100, Event.connect w.cp.socket 30, Event.kill pid,
            Event.goWait pid], by simp [Res.world, hproc], ?_⟩
          simp [Event.isConnect, List.countP_cons]
          omega
      · simp only [h, dite_run, dite_false]
        obtain ⟨ext, hext, hcount⟩ := ih h
          ⟨w.cp, w.trace ++ [Event.sleep 100] ++ [Event.connect w.cp.socket 30]⟩ (by omega)
        refine ⟨[Event.sleep 100, Event.connect w.cp.socket 30] ++ ext, ?_, ?_⟩
        · rw [hext]; simp
        · simp [Event.isConnect, List.countP_cons]
          omega
    | setError err =>
      refine ⟨[Event.sleep 100, Event.connect w.cp.socket 30, Event.set "health" "ok"],
        by simp [Res.world], ?_⟩
      simp [Event.isConnect, List.countP_cons]
      omega
    | healthy =>
      refine ⟨[Event.sleep 100, Event.connect w.cp.socket 30, Event.set "health" "ok",
        Event.connClose], by simp [Res.world], ?_⟩
      simp [Event.isConnect, List.countP_cons]
      omega

theorem generateFilename_ok (env : OpenEnv) (w : World) (h1 : env.tempFileErr = none)
    (h2 : env.closeErr = none) (h3 : env.removeErr = none) :
    generateFilename env w =
      .ret (env.tmpDir ++ "mc" ++ env.suffix)
        ⟨w.cp, w.trace ++ [Event.tempFile "" "mc",
          Event.fileClose (env.tmpDir ++ "mc" ++ env.suffix),
          Event.remove (env.tmpDir ++ "mc" ++ env.suffix)]⟩ := by
  unfold generateFilename TempFile
  simp [h1, h2, h3]

theorem startMemcacheLoop_healthy (env : OpenEnv) (k : Nat) (hk : k < 50)
    (hfail : ∀ i, i < k → ∃ err, env.probe i = .connectError err)
    (hok : env.probe k = .healthy) (a : Nat) :
    ∀ w : World, a ≤ k →
      startMemcacheLoop env a w =
        .ret () ⟨w.cp, w.trace ++ failedProbes w.cp.socket (k - a) ++
          [Event.sleep 100, Event.connect w.cp.socket 30, Event.set "health" "ok",
            Event.connClose]⟩ := by
  induction a using startMemcacheLoop.induct env with
  | case1 a ih =>
    intro w ha
    rw [startMemcacheLoop]
    simp only [bind_run, getCp_run, emit_run]
    by_cases hak : a = k
    · subst hak
      simp [hok, failedProbes]
    · have hlt : a < k := by omega
      obtain ⟨err, herr⟩ := hfail a hlt
      have h : ¬ a + 1 ≥ 50 := by omega
      have hstep : k - a = (k - (a + 1)) + 1 := by omega
      simp only [herr, dite_run, h, dite_false]
      rw [ih h ⟨w.cp, w.trace ++ [Event.sleep 100] ++ [Event.connect w.cp.socket 30]⟩
        (by omega), hstep, failedProbes_succ]
      simp

theorem failedProbes_quiet (socket : String) (k : Nat) :
    (failedProbes socket k).countP Event.isNewResourcePool = 0 := by
  induction k with
  | zero => rfl
  | succ k ih =>
    simp only [failedProbes, List.cons_append, List.nil_append]
    rw [List.countP_cons_of_neg _ _ (by simp [Event.isNewResourcePool]),
      List.countP_cons_of_neg _ _ (by simp [Event.isNewResourcePool]), ih]

theorem statsOpenEvents_quiet (cp : CachePool) :
    (statsOpenEvents cp).countP Event.isNewResourcePool = 0 := by
  unfold statsOpenEvents
  by_cases h : cp.memcacheStats = none <;> simp [h, Event.isNewResourcePool]

theorem Open_success (env : OpenEnv) (w : World) (pid k : Nat) (h1 : w.cp.pool = none)
    (h2 : w.cp.rowCacheConfig.Binary ≠ "") (e1 : env.tempFileErr = none)
    (e2 : env.closeErr = none) (e3 : env.removeErr = none) (hstart : env.startResult = .ok pid)
    (hk : k < 50) (hfail : ∀ i, i < k → ∃ err, env.probe i = .connectError err)
    (hok : env.probe k = .healthy) :
    Open env w =
      .ret ()
        ⟨{ name := w.cp.name, maxPrefix := w.cp.maxPrefix, capacity := w.cp.capacity,
           pool := some ⟨w.cp.capacity, w.cp.capacity, w.cp.idleTimeout⟩,
           cmd := some ⟨w.cp.rowCacheConfig, env.tmpDir ++ "mc" ++ env.suffix, some pid⟩,
           rowCacheConfig := w.cp.rowCacheConfig, idleTimeout := w.cp.idleTimeout,
           socket := env.tmpDir ++ "mc" ++ env.suffix, memcacheStats := w.cp.memcacheStats },
        w.trace ++ ([Event.tempFile "" "mc", Event.fileClose (env.tmpDir ++ "mc" ++ env.suffix),
            Event.remove (env.tmpDir ++ "mc" ++ env.suffix),
            Event.start ⟨w.cp.rowCacheConfig, env.tmpDir ++ "mc" ++ env.suffix, none⟩] ++
          failedProbes (env.tmpDir ++ "mc" ++ env.suffix) k ++
          [Event.sleep 100, Event.connect (env.tmpDir ++ "mc" ++ env.suffix) 30,
            Event.set "health" "ok", Event.connClose,
            Event.newResourcePool ⟨w.cp.capacity, w.cp.capacity, w.cp.idleTimeout⟩] ++
          statsOpenEvents w.cp)⟩ := by
  rw [Open_eq, if_neg (not_not.mpr h1), if_neg h2, generateFilename_ok env w e1 e2 e3]
  simp only [startMemcache_eq, hstart]
  rw [startMemcacheLoop_healthy env k hk hfail hok 0 _ (Nat.zero_le k)]
  simp [statsOpenEvents]

theorem config_step (cfg : RowCacheConfig) (idle : Int) (c : Call) (w : World)
    (h : w.cp.rowCacheConfig = cfg ∧ w.cp.idleTimeout = idle) :
    (c.run w).world.cp.rowCacheConfig = cfg ∧ (c.run w).world.cp.idleTimeout = idle := by
  obtain ⟨hc, hi⟩ := h
  cases c with
  | Open env =>
    obtain ⟨⟨-, -, h3, -, h5, -⟩, -⟩ := Open_summary env w
    simp only [Call.run]
    exact ⟨h3.trans hc, h5.trans hi⟩
  | Close =>
    obtain ⟨⟨-, -, h3, -, h5, -⟩, -⟩ := Close_summary w
    simp only [Call.run]
    exact ⟨h3.trans hc, h5.trans hi⟩

/-! ## The claims -/

/-- C2: `Close` on a manager that is already closed returns normally with every
field and the trace of external calls as they were (no pool close, no kill, no
socket removal); so a `Close` right after a `Close` that returned is such a
no-op, and for every state the fields after `Close; Close` are the fields after
one `Close`. -/
theorem Close_idempotent (w : World) :
    (w.cp.pool = none → Close w = .ret () w) ∧
    (∀ w1, Close w = .ret () w1 → Close w1 = .ret () w1) ∧
    (Close (Close w).world).world.cp = (Close w).world.cp := by
  have closed : ∀ v : World, v.cp.pool = none → Close v = .ret () v := by
    intro v hv
    rw [Close_eq, hv]
  refine ⟨closed w, ?_, ?_⟩
  · intro w1 h
    apply closed
    rw [Close_eq] at h
    cases h1 : w.cp.pool with
    | none =>
      simp only [h1, Res.ret.injEq, true_and] at h
      rw [← h, h1]
    | some pool =>
      cases h2 : w.cp.process with
      | none => simp [h1, h2] at h
      | some pid =>
        simp only [h1, h2, Res.ret.injEq, true_and] at h
        rw [← h]
  · cases h1 : w.cp.pool with
    | none => simp [closed w h1, Res.world]
    | some pool =>
      cases h2 : w.cp.process with
      | none =>
        have e1 : Close w = .panic .nilDereference
            ⟨w.cp, w.trace ++ [Event.poolClose pool] ++ statsCloseEvents w.cp⟩ := by
          rw [Close_eq]; simp [h1, h2]
        rw [e1]
        simp only [Res.world]
        rw [Close_eq]
        simp [h1, h2, Res.world]
      | some pid =>
        have e1 : Close w = .ret () ⟨{ w.cp with socket := "", pool := none },
            w.trace ++ [Event.poolClose pool] ++ statsCloseEvents w.cp ++
              [Event.kill pid, Event.goWait pid, Event.remove w.cp.socket]⟩ := by
          rw [Close_eq]; simp [h1, h2]
        rw [e1]
        simp only [Res.world]
        rw [closed _ rfl]

/-- Witness of C2 on the manager that was opened and closed once. -/
theorem Close_idempotent_witness :
    exampleReclosed.cp.pool = none ∧ Close exampleReclosed = .ret () exampleReclosed ∧
      Close exampleOpened = .ret () exampleReclosed :=
  ⟨rfl, (Close_idempotent exampleReclosed).1 rfl, Close_exampleOpened⟩

/-- C3: on a closed manager `Get` panics at once with the fatal
"cache pool is not open" error, whatever the context and whatever the pool
would have answered: the trace gets no `pool.Get` call and no field changes. -/
theorem Get_closed (ctx : Context) (acquire : Except String Connection) (w : World)
    (h : w.cp.pool = none) :
    Get ctx acquire w = .panic (.NewTabletError .ErrFatal "cache pool is not open") w := by
  rw [Get_eq, h]

/-- Witness of C3 on the freshly constructed manager. -/
theorem Get_closed_witness :
    exampleFresh.cp.pool = none ∧
      Get ⟨0⟩ (.ok ⟨1⟩) exampleFresh =
        .panic (.NewTabletError .ErrFatal "cache pool is not open") exampleFresh :=
  ⟨rfl, Get_closed ⟨0⟩ (.ok ⟨1⟩) exampleFresh rfl⟩

/-- C4: on a closed manager `Put` returns normally for every connection
argument, nil included, with the trace (no pool call) and every field as they
were. -/
theorem Put_closed (conn : Option Connection) (w : World) (h : w.cp.pool = none) :
    Put conn w = .ret () w := by
  rw [Put_eq, h]

/-- Witness of C4 on the manager that was opened and closed once, with a nil
connection. -/
theorem Put_closed_witness :
    exampleReclosed.cp.pool = none ∧ Put none exampleReclosed = .ret () exampleReclosed :=
  ⟨rfl, Put_closed none exampleReclosed rfl⟩

/-- C5: when the manager is already open, or no executable is configured, `Open`
panics with a fatal error before anything is done: the world after it is the
world before it, so the trace has no new call (no temp file, no process start,
no `NewResourcePool`) and every field is unchanged. -/
theorem Open_fault_before_effect (env : OpenEnv) (w : World)
    (h : w.cp.pool ≠ none ∨ w.cp.rowCacheConfig.Binary = "") :
    Open env w = .panic (.NewTabletError .ErrFatal
      (if w.cp.pool ≠ none then "rowcache is already open"
        else "rowcache binary not specified")) w := by
  rw [Open_eq]
  by_cases h1 : w.cp.pool = none
  · rcases h with h | h
    · exact absurd h1 h
    · simp [h1, h]
  · simp [h1]

/-- Witness of C5 on an open manager and on a manager built without an
executable. -/
theorem Open_fault_before_effect_witness :
    (exampleOpened.cp.pool ≠ none ∧
      Open exampleEnv exampleOpened =
        .panic (.NewTabletError .ErrFatal "rowcache is already open") exampleOpened) ∧
    ((NewCachePool "" ⟨"", 100⟩ 0).world.cp.rowCacheConfig.Binary = "" ∧
      Open exampleEnv (NewCachePool "" ⟨"", 100⟩ 0).world =
        .panic (.NewTabletError .ErrFatal "rowcache binary not specified")
          (NewCachePool "" ⟨"", 100⟩ 0).world) :=
  ⟨⟨by decide, Open_fault_before_effect exampleEnv exampleOpened (Or.inl (by decide))⟩,
    ⟨by decide, Open_fault_before_effect exampleEnv _ (Or.inr (by decide))⟩⟩

/-- C7, as the code has it: with an executable configured, a requested
connection count `n` with `0 < n ≤ 50` makes `NewCachePool` end in `log.Fatalf`
and no manager is returned; a count `n ≤ 0` is taken as not set, and the
manager is returned with the memcached default capacity `1024 - 50`. -/
theorem NewCachePool_capacity_floor (name : String) (cfg : RowCacheConfig) (idle : Int)
    (hb : cfg.Binary ≠ "") :
    (0 < cfg.Connections → cfg.Connections ≤ 50 →
      ∃ w, NewCachePool name cfg idle =
        .fatal ("insufficient capacity: " ++ toString cfg.Connections) w) ∧
    (cfg.Connections ≤ 0 →
      ∃ cp w, NewCachePool name cfg idle = .ret cp w ∧ w.cp = cp ∧ cp.capacity = 974) := by
  obtain ⟨tr, -, h⟩ := NewCachePool_eq name cfg idle
  constructor
  · intro h0 h50
    rw [h]
    simp [hb, h0, h50]
  · intro h0
    have h1 : ¬ 0 < cfg.Connections := by omega
    rw [h, if_neg hb, if_neg (fun h2 => h1 h2.1)]
    exact ⟨_, _, rfl, rfl, by simp [h1]⟩

/-- Witness of C7 (amended) at 50 and at 0 requested connections. -/
theorem NewCachePool_capacity_floor_witness :
    (∃ w, NewCachePool "" ⟨"/usr/bin/memcached", 50⟩ 0 = .fatal "insufficient capacity: 50" w) ∧
    (∃ cp w, NewCachePool "" ⟨"/usr/bin/memcached", 0⟩ 0 = .ret cp w ∧ w.cp = cp ∧
      cp.capacity = 974) :=
  ⟨(NewCachePool_capacity_floor "" ⟨"/usr/bin/memcached", 50⟩ 0 (by decide)).1
      (by decide) (by decide),
    (NewCachePool_capacity_floor "" ⟨"/usr/bin/memcached", 0⟩ 0 (by decide)).2 (by decide)⟩

/-- Counterexample to C7 as stated: with an executable configured and 0
requested connections (at or below the reservation of 50), `NewCachePool`
returns a manager, of capacity 974. -/
theorem NewCachePool_zero_connections_returns :
    (⟨"/usr/bin/memcached", 0⟩ : RowCacheConfig).Binary ≠ "" ∧
    (⟨"/usr/bin/memcached", 0⟩ : RowCacheConfig).Connections ≤ 50 ∧
    NewCachePool "" ⟨"/usr/bin/memcached", 0⟩ 0 =
      .ret { CachePool.zero "" 0 with rowCacheConfig := ⟨"/usr/bin/memcached", 0⟩, capacity := 974 }
        ⟨{ CachePool.zero "" 0 with rowCacheConfig := ⟨"/usr/bin/memcached", 0⟩, capacity := 974 },
          [Event.httpHandle "/debug/memcache/"]⟩ := by
  decide

/-- C8, as the code has it: on an open manager, when `pool.Get` returns an error,
`Get` does not return it: it panics with the `TabletError` that
`NewTabletErrorSql(ErrFatal, err)` builds.  The pool was asked once and no field
of the manager changed. -/
theorem Get_acquire_error_panics (ctx : Context) (err : String) (w : World) (pool : ResourcePool)
    (h : w.cp.pool = some pool) :
    Get ctx (.error err) w =
      .panic (.NewTabletErrorSql .ErrFatal err) ⟨w.cp, w.trace ++ [Event.poolGet pool ctx]⟩ := by
  rw [Get_eq, h]

/-- Witness of C8 (amended) on the opened manager. -/
theorem Get_acquire_error_panics_witness :
    exampleOpened.cp.pool = some ⟨50, 50, 0⟩ ∧
      Get ⟨0⟩ (.error "context canceled") exampleOpened =
        .panic (.NewTabletErrorSql .ErrFatal "context canceled")
          ⟨exampleOpened.cp, exampleOpened.trace ++ [Event.poolGet ⟨50, 50, 0⟩ ⟨0⟩]⟩ :=
  ⟨rfl, Get_acquire_error_panics ⟨0⟩ "context canceled" exampleOpened ⟨50, 50, 0⟩ rfl⟩

/-- Counterexample to C8 as stated: on the opened manager, with the pool answering
"context canceled", `Get` ends in a panic of kind `ErrFatal`, and in no return. -/
theorem Get_canceled_is_fatal_panic :
    exampleOpened.cp.pool ≠ none ∧
    (∃ w, Get ⟨0⟩ (.error "context canceled") exampleOpened =
      .panic (.NewTabletErrorSql .ErrFatal "context canceled") w) ∧
    ¬ ∃ r w, Get ⟨0⟩ (.error "context canceled") exampleOpened = .ret r w := by
  refine ⟨by decide, ⟨_, by rw [Get_eq]; rfl⟩, ?_⟩
  rintro ⟨r, w, h⟩
  rw [Get_eq] at h
  simp [exampleOpened] at h

/-- C1: after any sequence of `Open` and `Close` calls on a freshly constructed
manager in which every call returned normally, `IsClosed()` returns true exactly
when the sequence is empty or its last call was `Close`, and false exactly when
its last call was `Open`; it changes nothing. -/
theorem IsClosed_after_calls (name : String) (cfg : RowCacheConfig) (idle : Int)
    (cp0 : CachePool) (w0 : World) (hnew : NewCachePool name cfg idle = .ret cp0 w0)
    (cs : List Call) (w : World) (hrun : runCalls cs w0 = .ret () w) :
    ∃ b, IsClosed w = .ret b w ∧
      (b = true ↔ (cs = [] ∨ cs.getLast? = some Call.Close)) ∧
      (b = false ↔ ∃ env, cs.getLast? = some (Call.Open env)) := by
  obtain ⟨hw0, hp0, -, -, -⟩ := NewCachePool_ret name cfg idle cp0 w0 hnew
  obtain ⟨h1, h2, h3⟩ := runCalls_last cs w0 w hrun
  refine ⟨w.cp.pool.isNone, IsClosed_run w, ?_, ?_⟩
  · constructor
    · intro hb
      cases hl : cs.getLast? with
      | none => exact Or.inl (List.getLast?_eq_none_iff.mp hl)
      | some c =>
        cases c with
        | Close => exact Or.inr rfl
        | Open env =>
          have := h3 env hl
          simp only [Option.isNone_iff_eq_none] at hb
          exact absurd hb this
    · rintro (hnil | hl)
      · rw [h1 hnil, hw0, hp0]; rfl
      · rw [h2 hl]; rfl
  · constructor
    · intro hb
      cases hl : cs.getLast? with
      | none =>
        have hnil := List.getLast?_eq_none_iff.mp hl
        rw [h1 hnil, hw0, hp0] at hb
        simp at hb
      | some c =>
        cases c with
        | Close => rw [h2 hl] at hb; simp at hb
        | Open env => exact ⟨env, rfl⟩
    · rintro ⟨env, hl⟩
      have := h3 env hl
      cases hp : w.cp.pool with
      | none => exact absurd hp this
      | some p => rfl

/-- Witness of C1 on the sequence Open, Close, Open from `NewCachePool`. -/
theorem IsClosed_after_calls_witness :
    NewCachePool "" exampleConfig 0 = .ret exampleFresh.cp exampleFresh ∧
    runCalls [Call.Open exampleEnv, Call.Close] exampleFresh = .ret () exampleReclosed ∧
    ∃ b, IsClosed exampleReclosed = .ret b exampleReclosed ∧
      (b = true ↔ ([Call.Open exampleEnv, Call.Close] = [] ∨
        [Call.Open exampleEnv, Call.Close].getLast? = some Call.Close)) ∧
      (b = false ↔ ∃ env, [Call.Open exampleEnv, Call.Close].getLast? = some (Call.Open env)) :=
  have hrun : runCalls [Call.Open exampleEnv, Call.Close] exampleFresh =
      .ret () exampleReclosed := by
    rw [runCalls_cons]
    simp only [Call.run, Open_exampleFresh]
    rw [runCalls_cons]
    simp only [Call.run, Close_exampleOpened]
    rfl
  ⟨NewCachePool_exampleFresh, hrun,
    IsClosed_after_calls "" exampleConfig 0 exampleFresh.cp exampleFresh
      NewCachePool_exampleFresh [Call.Open exampleEnv, Call.Close] exampleReclosed hrun⟩

/-- C6: a manager constructed with an executable configured and a requested
connection count `n > 50` has capacity `n - 50`; after any sequence of `Open` and
`Close` calls, however each of them ended, the capacity is still `n - 50`, every
`NewResourcePool` call made so far was given capacity and maximum capacity
`n - 50`, and an `Open` that returns has made such a call and installed that
pool.  An `Open` does return whenever the manager is closed, the socket name is
generated, the process starts and the probe is healthy at one of the first 50
dials after failed dials only: it then makes exactly one `NewResourcePool` call,
with capacity `n - 50`, maximum capacity `n - 50` and the idle timeout the
manager was constructed with, installs that pool and leaves the capacity as it
was. -/
theorem capacity_fixed (name : String) (cfg : RowCacheConfig) (idle : Int)
    (hb : cfg.Binary ≠ "") (hn : 50 < cfg.Connections) :
    ∃ cp0 w0, NewCachePool name cfg idle = .ret cp0 w0 ∧ w0.cp = cp0 ∧
      cp0.capacity = cfg.Connections - 50 ∧
      ∀ cs : List Call,
        (afterCalls cs w0).cp.capacity = cfg.Connections - 50 ∧
        (∀ p, Event.newResourcePool p ∈ (afterCalls cs w0).trace →
          p.capacity = cfg.Connections - 50 ∧ p.maxCap = cfg.Connections - 50) ∧
        (∀ env w1, Open env (afterCalls cs w0) = .ret () w1 →
          ∃ p, w1.cp.pool = some p ∧ Event.newResourcePool p ∈ w1.trace ∧
            p.capacity = cfg.Connections - 50 ∧ p.maxCap = cfg.Connections - 50) ∧
        (∀ (env : OpenEnv) (pid k : Nat), (afterCalls cs w0).cp.pool = none →
          env.tempFileErr = none → env.closeErr = none → env.removeErr = none →
          env.startResult = .ok pid → k < 50 →
          (∀ i, i < k → ∃ err, env.probe i = .connectError err) → env.probe k = .healthy →
          ∃ w1 ext, Open env (afterCalls cs w0) = .ret () w1 ∧
            w1.cp.pool = some ⟨cfg.Connections - 50, cfg.Connections - 50, idle⟩ ∧
            w1.cp.capacity = cfg.Connections - 50 ∧
            w1.trace = (afterCalls cs w0).trace ++ ext ∧
            Event.newResourcePool ⟨cfg.Connections - 50, cfg.Connections - 50, idle⟩ ∈ ext ∧
            ext.countP Event.isNewResourcePool = 1) := by
  obtain ⟨tr, htr, heq⟩ := NewCachePool_eq name cfg idle
  have h0 : 0 < cfg.Connections := by omega
  have h50 : ¬ (0 < cfg.Connections ∧ cfg.Connections ≤ 50) := by omega
  rw [if_neg hb, if_neg h50] at heq
  have hret : ∃ cp0 w0, NewCachePool name cfg idle = .ret cp0 w0 ∧ w0.cp = cp0 ∧
      cp0.capacity = cfg.Connections - 50 ∧ cp0.rowCacheConfig = cfg ∧
      cp0.idleTimeout = idle := ⟨_, _, heq, rfl, by simp [h0], rfl, rfl⟩
  obtain ⟨cp0, w0, hnew, hw0, hcap, hcfg, hidle⟩ := hret
  obtain ⟨-, -, -, -, hq⟩ := NewCachePool_ret name cfg idle cp0 w0 hnew
  refine ⟨cp0, w0, hnew, hw0, hcap, ?_⟩
  intro cs
  have inv := afterCalls_invariant
    (fun w => w.cp.capacity = cfg.Connections - 50 ∧
      ∀ p, Event.newResourcePool p ∈ w.trace →
        p.capacity = cfg.Connections - 50 ∧ p.maxCap = cfg.Connections - 50)
    (capacity_step (cfg.Connections - 50)) cs w0
    ⟨by rw [hw0]; exact hcap, by
      intro p hp
      have := hq _ hp
      simp [Event.isNewResourcePool] at this⟩
  have inv2 := afterCalls_invariant
    (fun w => w.cp.rowCacheConfig = cfg ∧ w.cp.idleTimeout = idle)
    (config_step cfg idle) cs w0 ⟨by rw [hw0]; exact hcfg, by rw [hw0]; exact hidle⟩
  refine ⟨inv.1, inv.2, ?_, ?_⟩
  · intro env w1 hopen
    have hs := (Open_summary env (afterCalls cs w0)).2.2.1
    rw [hopen] at hs
    obtain ⟨-, -, hpool, hmem, -, -⟩ := hs rfl
    simp only [Res.world] at hpool hmem
    exact ⟨_, hpool, hmem, inv.1, inv.1⟩
  · intro env pid k hclosed e1 e2 e3 hstart hk hfail hok
    have hbin : (afterCalls cs w0).cp.rowCacheConfig.Binary ≠ "" := by
      rw [inv2.1]; exact hb
    have hopen := Open_success env (afterCalls cs w0) pid k hclosed hbin e1 e2 e3 hstart hk
      hfail hok
    have hcap1 : (afterCalls cs w0).cp.capacity = cfg.Connections - 50 := inv.1
    have hidle1 : (afterCalls cs w0).cp.idleTimeout = idle := inv2.2
    exact ⟨_, _, hopen, by simp only [hcap1, hidle1], hcap1, rfl, by simp [hcap1, hidle1],
      by simp [List.countP_append, failedProbes_quiet, statsOpenEvents_quiet, List.countP_cons,
        Event.isNewResourcePool]⟩

/-- Witness of C6 at 100 requested connections: the manager is constructed with
capacity 50, and its first `Open`, in an environment where every external call
succeeds at once, returns with the pool of capacity 50 and maximum capacity 50
installed and the `NewResourcePool` call for it in the trace. -/
theorem capacity_fixed_witness :
    exampleConfig.Binary ≠ "" ∧ 50 < exampleConfig.Connections ∧
    NewCachePool "" exampleConfig 0 = .ret exampleFresh.cp exampleFresh ∧
    exampleFresh.cp.capacity = 50 ∧
    Open exampleEnv exampleFresh = .ret () exampleOpened ∧
    exampleOpened.cp.pool = some ⟨50, 50, 0⟩ ∧ exampleOpened.cp.capacity = 50 ∧
    Event.newResourcePool ⟨50, 50, 0⟩ ∈ exampleOpened.trace ∧
    ∃ cp0 w0, NewCachePool "" exampleConfig 0 = .ret cp0 w0 ∧ w0.cp = cp0 ∧
      cp0.capacity = exampleConfig.Connections - 50 ∧
      ∀ cs : List Call,
        (afterCalls cs w0).cp.capacity = exampleConfig.Connections - 50 ∧
        (∀ p, Event.newResourcePool p ∈ (afterCalls cs w0).trace →
          p.capacity = exampleConfig.Connections - 50 ∧
            p.maxCap = exampleConfig.Connections - 50) ∧
        (∀ env w1, Open env (afterCalls cs w0) = .ret () w1 →
          ∃ p, w1.cp.pool = some p ∧ Event.newResourcePool p ∈ w1.trace ∧
            p.capacity = exampleConfig.Connections - 50 ∧
            p.maxCap = exampleConfig.Connections - 50) ∧
        (∀ (env : OpenEnv) (pid k : Nat), (afterCalls cs w0).cp.pool = none →
          env.tempFileErr = none → env.closeErr = none → env.removeErr = none →
          env.startResult = .ok pid → k < 50 →
          (∀ i, i < k → ∃ err, env.probe i = .connectError err) → env.probe k = .healthy →
          ∃ w1 ext, Open env (afterCalls cs w0) = .ret () w1 ∧
            w1.cp.pool =
              some ⟨exampleConfig.Connections - 50, exampleConfig.Connections - 50, 0⟩ ∧
            w1.cp.capacity = exampleConfig.Connections - 50 ∧
            w1.trace = (afterCalls cs w0).trace ++ ext ∧
            Event.newResourcePool
              ⟨exampleConfig.Connections - 50, exampleConfig.Connections - 50, 0⟩ ∈ ext ∧
            ext.countP Event.isNewResourcePool = 1) :=
  ⟨by decide, by decide, NewCachePool_exampleFresh, rfl, Open_exampleFresh, rfl, rfl,
    by decide, capacity_fixed "" exampleConfig 0 (by decide) (by decide)⟩

/-- C9, as the code has it: in every state reached from a freshly constructed
manager by `Open` and `Close` calls, however each ended, the per-`Open` fields
are nested, not equivalent: a non-nil pool reference implies a non-empty socket
address, and a non-empty socket address implies a non-nil process handle.  From
such a state `Close` returns normally and leaves the pool reference nil, and the
socket address empty if the manager was open. -/
theorem lifecycle_fields_nested (name : String) (cfg : RowCacheConfig) (idle : Int)
    (cp0 : CachePool) (w0 : World) (hnew : NewCachePool name cfg idle = .ret cp0 w0)
    (cs : List Call) :
    ((afterCalls cs w0).cp.pool ≠ none → (afterCalls cs w0).cp.socket ≠ "") ∧
    ((afterCalls cs w0).cp.socket ≠ "" → (afterCalls cs w0).cp.cmd ≠ none) ∧
    ∃ w1, Close (afterCalls cs w0) = .ret () w1 ∧ w1.cp.pool = none ∧
      ((afterCalls cs w0).cp.pool ≠ none → w1.cp.socket = "") := by
  obtain ⟨hw0, hp0, hc0, hs0, -⟩ := NewCachePool_ret name cfg idle cp0 w0 hnew
  have h0 : w0.Nested := by
    unfold World.Nested
    rw [hw0]
    exact ⟨fun h => absurd hp0 h, fun h => absurd hs0 h⟩
  obtain ⟨hp, hs⟩ := afterCalls_invariant World.Nested nested_step cs w0 h0
  refine ⟨fun h => (hp h).1, hs, ?_⟩
  rw [Close_eq]
  cases h1 : (afterCalls cs w0).cp.pool with
  | none => exact ⟨_, rfl, h1, fun h => absurd rfl h⟩
  | some pool =>
    have hproc := (hp (by rw [h1]; simp)).2
    cases h2 : (afterCalls cs w0).cp.process with
    | none => exact absurd h2 hproc
    | some pid => exact ⟨_, rfl, rfl, fun _ => rfl⟩

/-- Witness of C9 (amended) on the sequence Open, Close from `NewCachePool`. -/
theorem lifecycle_fields_nested_witness :
    NewCachePool "" exampleConfig 0 = .ret exampleFresh.cp exampleFresh ∧
    ((afterCalls [Call.Open exampleEnv] exampleFresh).cp.pool ≠ none →
      (afterCalls [Call.Open exampleEnv] exampleFresh).cp.socket ≠ "") ∧
    ((afterCalls [Call.Open exampleEnv] exampleFresh).cp.socket ≠ "" →
      (afterCalls [Call.Open exampleEnv] exampleFresh).cp.cmd ≠ none) ∧
    ∃ w1, Close (afterCalls [Call.Open exampleEnv] exampleFresh) = .ret () w1 ∧
      w1.cp.pool = none ∧
      ((afterCalls [Call.Open exampleEnv] exampleFresh).cp.pool ≠ none → w1.cp.socket = "") :=
  ⟨NewCachePool_exampleFresh,
    lifecycle_fields_nested "" exampleConfig 0 exampleFresh.cp exampleFresh
      NewCachePool_exampleFresh [Call.Open exampleEnv]⟩

/-- Counterexample to C9 as stated.  From `NewCachePool("", exampleConfig, 0)`:
after an `Open` that succeeds and a `Close`, the pool reference is nil and the
socket address is empty while the process handle is still non-nil; and after an
`Open` that panics at `cmd.Start` and a `Close`, the pool reference is nil while
the socket address is non-empty and the process handle is non-nil. -/
theorem fields_not_equivalent_after_Close :
    NewCachePool "" exampleConfig 0 = .ret exampleFresh.cp exampleFresh ∧
    afterCalls [Call.Open exampleEnv, Call.Close] exampleFresh = exampleReclosed ∧
    exampleReclosed.cp.pool = none ∧ exampleReclosed.cp.socket = "" ∧
    exampleReclosed.cp.cmd = some ⟨exampleConfig, "/tmp/mc123", some 7⟩ ∧
    afterCalls [Call.Open noStartEnv, Call.Close] exampleFresh = exampleFailed ∧
    exampleFailed.cp.pool = none ∧ exampleFailed.cp.socket = "/tmp/mc123" ∧
    exampleFailed.cp.cmd = some ⟨exampleConfig, "/tmp/mc123", none⟩ := by
  refine ⟨NewCachePool_exampleFresh, ?_, rfl, rfl, rfl, ?_, rfl, rfl, rfl⟩
  · simp only [afterCalls, Call.run, Open_exampleFresh, Close_exampleOpened]
  · simp only [afterCalls, Call.run, Open_noStart]
    rw [Close_eq]
    rfl

/-- C10: the health-check loop always ends, after at most 50 dials.  When `Open`
runs on a closed manager with an executable configured, the socket name is
generated, the process starts and every dial fails, the loop makes exactly 50
dials, then the process is killed and reaped, `Open` ends in `log.Fatal`, and no
pool is installed: the pool reference is still nil and `IsClosed()` is true. -/
theorem health_check_bounded (env : OpenEnv) (w : World) :
    (∃ ext, (startMemcacheLoop env 0 w).world.trace = w.trace ++ ext ∧
      ext.countP Event.isConnect ≤ 50) ∧
    (∀ pid, w.cp.pool = none → w.cp.rowCacheConfig.Binary ≠ "" →
      env.tempFileErr = none → env.closeErr = none → env.removeErr = none →
      env.startResult = .ok pid → (∀ i, ∃ err, env.probe i = .connectError err) →
      ∃ w1 ext, Open env w = .fatal "Can't connect to memcache" w1 ∧
        w1.trace = w.trace ++ ext ∧
        ext = [Event.tempFile "" "mc", Event.fileClose (env.tmpDir ++ "mc" ++ env.suffix),
            Event.remove (env.tmpDir ++ "mc" ++ env.suffix),
            Event.start ⟨w.cp.rowCacheConfig, env.tmpDir ++ "mc" ++ env.suffix, none⟩] ++
          failedProbes (env.tmpDir ++ "mc" ++ env.suffix) 50 ++
          [Event.kill pid, Event.goWait pid] ∧
        ext.countP Event.isConnect = 50 ∧
        w1.cp.pool = none ∧ IsClosed w1 = .ret true w1) := by
  constructor
  · exact startMemcacheLoop_dials env 0 w (by decide)
  · intro pid h1 h2 e1 e2 e3 hstart hfail
    rw [Open_eq, if_neg (not_not.mpr h1), if_neg h2, generateFilename_ok env w e1 e2 e3]
    simp only [startMemcache_eq, hstart]
    rw [startMemcacheLoop_all_fail env hfail 0 _ pid (by decide) (by simp [CachePool.process])]
    refine ⟨_, _, rfl, ?_, rfl, ?_, h1, ?_⟩
    · simp
    · simp [List.countP_append, failedProbes_count, List.countP_cons, Event.isConnect]
    · rw [IsClosed_run]
      simp [h1]

/-- Witness of C10 on the fresh manager, with a process that never answers. -/
theorem health_check_bounded_witness :
    exampleFresh.cp.pool = none ∧ exampleFresh.cp.rowCacheConfig.Binary ≠ "" ∧
    deafEnv.startResult = .ok 7 ∧ (∀ i, ∃ err, deafEnv.probe i = .connectError err) ∧
    ∃ w1 ext, Open deafEnv exampleFresh = .fatal "Can't connect to memcache" w1 ∧
      w1.trace = exampleFresh.trace ++ ext ∧
      ext = [Event.tempFile "" "mc", Event.fileClose (deafEnv.tmpDir ++ "mc" ++ deafEnv.suffix),
          Event.remove (deafEnv.tmpDir ++ "mc" ++ deafEnv.suffix),
          Event.start ⟨exampleFresh.cp.rowCacheConfig,
            deafEnv.tmpDir ++ "mc" ++ deafEnv.suffix, none⟩] ++
        failedProbes (deafEnv.tmpDir ++ "mc" ++ deafEnv.suffix) 50 ++
        [Event.kill 7, Event.goWait 7] ∧
      ext.countP Event.isConnect = 50 ∧
      w1.cp.pool = none ∧ IsClosed w1 = .ret true w1 :=
  ⟨rfl, by decide, rfl, fun _ => ⟨_, rfl⟩,
    (health_check_bounded deafEnv exampleFresh).2 7 rfl (by decide) rfl rfl rfl rfl
      (fun _ => ⟨_, rfl⟩)⟩

end Tabletserver
